import Mathlib

/-!
Verification of the strawberry GraphQL SDL printer (src/strawberry/printer.py)
against its natural-language specification.

The printer is shallowly embedded: Python runtime values reachable from
directive argument bindings are modelled by the inductive type `Value`;
GraphQL input types by `GType`; GraphQL value AST nodes by `Ast`.  Python's
bounded call stack is modelled by an explicit fuel parameter threaded through
every recursive function: exhausting the fuel yields the error
"maximum recursion depth exceeded", exactly as CPython raises RecursionError
when actual recursion outruns any stack budget.  A function diverges on an
input precisely when it returns that error for every fuel value.  Fallible
code (Python exceptions raised by the graphql-core literal encoder) is
modelled with `Except String`.

Functions of the repository that live outside src/ (strawberry/arguments.py,
strawberry/schema_directive.py, strawberry/field.py, strawberry/types/types.py,
the schema converter) are modelled from the spec and say so in their doc
comments.  Functions of the external graphql-core library that printer.py
imports are modelled from graphql-core's documented behaviour, restricted to
the value and type shapes that occur in this development; their doc comments
say so as well.
-/

/-- Locations at which a schema directive may be applied
(strawberry.schema_directive.Location and the matching graphql-core
DirectiveLocation values; modelled with a single enumeration). -/
inductive Location where
  | SCHEMA
  | SCALAR
  | OBJECT
  | FIELD_DEFINITION
  | ARGUMENT_DEFINITION
  | INTERFACE
  | UNION
  | ENUM
  | ENUM_VALUE
  | INPUT_OBJECT
  | INPUT_FIELD_DEFINITION
  deriving DecidableEq, Repr

/-- Python runtime values reachable from a directive application's argument
bindings: the strawberry Unset sentinel, graphql-core's Undefined, None,
ints, bools, strings, enum members (represented by their GraphQL name),
lists, dicts (ordered key/value pairs) and dataclass instances (ordered
field-name/value pairs). -/
inductive Value where
  | unset
  | vundef
  | vnull
  | vint (n : Int)
  | vbool (b : Bool)
  | vstr (s : String)
  | venum (name : String)
  | vlist (elems : List Value)
  | vdict (entries : List (String × Value))
  | vrecord (name : String) (fields : List (String × Value))

/-- Python's dataclasses.is_dataclass: true exactly on dataclass instances. -/
def is_dataclass : Value → Bool
  | .vrecord _ _ => true
  | _ => false

/-- Python's isinstance(value, Iterable) on the modelled values: strings,
lists and dicts are iterable; None, numbers, booleans, enum members and the
sentinels are not, and neither are (non-iterable) dataclass instances. -/
def isinstance_iterable : Value → Bool
  | .vstr _ => true
  | .vlist _ => true
  | .vdict _ => true
  | _ => false

/-- Python's isinstance(value, Mapping) on the modelled values. -/
def isinstance_mapping : Value → Bool
  | .vdict _ => true
  | _ => false

/-- Iterating a Python value with `for v in value`: a string yields its
characters as one-character strings, a list yields its elements, a dict
yields its keys. -/
def iterElems : Value → List Value
  | .vstr s => s.data.map (fun c => Value.vstr (String.mk [c]))
  | .vlist vs => vs
  | .vdict kvs => kvs.map (fun kv => Value.vstr kv.1)
  | _ => []

/-- Error message standing for Python's RecursionError; returned when the
fuel that models the interpreter's stack budget is exhausted. -/
def recursionErr : String := "maximum recursion depth exceeded"

/-- Effectful map over a list in the Except monad, used to embed Python list
comprehensions and generator expressions whose body may raise. -/
def exceptMapM {α β : Type} (f : α → Except String β) : List α → Except String (List β)
  | [] => pure []
  | a :: as => do pure ((← f a) :: (← exceptMapM f as))

/-- Python's dataclasses.asdict (standard library): recursively converts a
dataclass instance to a dict of its fields in declaration order, descending
into lists and dicts; every other value is (deep-copied and) returned as is. -/
def asdict : Nat → Value → Except String Value
  | 0, _ => Except.error recursionErr
  | Nat.succ fuel, v =>
    match v with
    | .vrecord _ fields => do
        let fs ← exceptMapM (fun kv => do pure (kv.1, ← asdict fuel kv.2)) fields
        pure (Value.vdict fs)
    | .vlist vs => do
        pure (Value.vlist (← exceptMapM (asdict fuel) vs))
    | .vdict kvs => do
        let fs ← exceptMapM (fun kv => do pure (kv.1, ← asdict fuel kv.2)) kvs
        pure (Value.vdict fs)
    | v => pure v

/-- strawberry.printer._serialize_dataclass, translated line by line from
src/strawberry/printer.py lines 43-51: a dataclass instance is converted
with dataclasses.asdict; otherwise, if the value is an instance of Iterable
(which in Python includes strings and dicts), a list of the serialized
iterated elements is built; otherwise, if it is a Mapping, a dict of
serialized values is built; anything else is returned unchanged. -/
def _serialize_dataclass : Nat → Value → Except String Value
  | 0, _ => Except.error recursionErr
  | Nat.succ fuel, v =>
    if is_dataclass v then
      asdict (Nat.succ fuel) v
    else if isinstance_iterable v then do
      pure (Value.vlist (← exceptMapM (_serialize_dataclass fuel) (iterElems v)))
    else if isinstance_mapping v then
      match v with
      | .vdict kvs => do
          let fs ← exceptMapM (fun kv => do pure (kv.1, ← _serialize_dataclass fuel kv.2)) kvs
          pure (Value.vdict fs)
      | _ => pure v
    else
      pure v

/-- Modelled from the spec: strawberry.arguments.is_unset
(strawberry/arguments.py, not under src/) tests whether a value is the Unset
sentinel, a single distinguished value strictly different from None. -/
def is_unset : Value → Bool
  | .unset => true
  | _ => false

/-- On src/strawberry/printer.py line 60 the source applies is_unset to the
loop variable `arg` — the GraphQLArgument definition object drawn from
directive.args — and not to the looked-up supplied value.  An argument
definition object is never the Unset sentinel, so this identity test is
false for every argument definition; the function below records that fact
at the type of argument definitions. -/
def is_unset_argdef {α : Type} (_ : α) : Bool := false

/-- GraphQL value AST nodes produced by the literal encoder (graphql-core's
ValueNode hierarchy, external library; modelled for the node kinds the
encoder below can produce). -/
inductive Ast where
  | nullValue
  | intValue (digits : String)
  | boolValue (b : Bool)
  | stringValue (s : String)
  | enumValue (name : String)
  | listValue (elems : List Ast)
  | objectValue (fields : List (String × Ast))

/-- GraphQL string literal escaping as performed by graphql-core's printer
(external library), modelled for quote and backslash escapes. -/
def escapeGraphQLChar (c : Char) : String :=
  if c = '"' then "\\\""
  else if c = '\\' then "\\\\"
  else String.mk [c]

/-- Escape every character of a string for a GraphQL string literal. -/
def escapeGraphQLString (s : String) : String :=
  String.join (s.data.map escapeGraphQLChar)

/-- graphql.language.printer.print_ast (external library), modelled on value
nodes: null, int, boolean, string (quoted and escaped), enum, list
literals in brackets and object literals in braces, entries joined by a
comma and a space. -/
def print_ast : Nat → Ast → Except String String
  | 0, _ => Except.error recursionErr
  | Nat.succ fuel, a =>
    match a with
    | .nullValue => pure "null"
    | .intValue digits => pure digits
    | .boolValue b => pure (if b then "true" else "false")
    | .stringValue s => pure ("\"" ++ escapeGraphQLString s ++ "\"")
    | .enumValue name => pure name
    | .listValue elems => do
        let parts ← exceptMapM (print_ast fuel) elems
        pure ("[" ++ String.intercalate ", " parts ++ "]")
    | .objectValue fields => do
        let parts ← exceptMapM (fun kv => do
            pure (kv.1 ++ ": " ++ (← print_ast fuel kv.2))) fields
        pure ("\x7b" ++ String.intercalate ", " parts ++ "\x7d")

/-- GraphQL input types against which directive argument values are encoded
(graphql-core's GraphQLInputType, external library): the built-in String,
Int and Boolean scalars, enum types (whose members are modelled by their
GraphQL names), list types, non-null wrappers and input object types. -/
inductive GType where
  | string
  | int
  | boolean
  | enumT (name : String) (members : List String)
  | listOf (item : GType)
  | nonNull (inner : GType)
  | inputObject (name : String) (fields : List (String × GType))

/-- Textual form of a GraphQL type reference, Python's str(type_). -/
def GType.toStr : GType → String
  | .string => "String"
  | .int => "Int"
  | .boolean => "Boolean"
  | .enumT name _ => name
  | .listOf item => "[" ++ item.toStr ++ "]"
  | .nonNull inner => inner.toStr ++ "!"
  | .inputObject name _ => name

/-- GraphQLString.serialize (graphql-core, external library): strings pass
through, booleans become "true"/"false", ints their decimal form; every
other value raises a GraphQLError. -/
def serialize_string : Value → Except String String
  | .vstr s => pure s
  | .vbool b => pure (if b then "true" else "false")
  | .vint n => pure (toString n)
  | _ => Except.error "String cannot represent value"

/-- GraphQLInt.serialize (graphql-core, external library): booleans become
1/0, ints pass through, numeric strings are parsed; the result must fit in
a signed 32-bit integer; everything else raises a GraphQLError. -/
def serialize_int : Value → Except String Int
  | .vbool b => pure (if b then 1 else 0)
  | .vint n =>
      if -2147483648 ≤ n ∧ n ≤ 2147483647 then pure n
      else Except.error "Int cannot represent non 32-bit signed integer value"
  | .vstr s =>
      match s.toInt? with
      | some n =>
          if -2147483648 ≤ n ∧ n ≤ 2147483647 then pure n
          else Except.error "Int cannot represent non 32-bit signed integer value"
      | none => Except.error "Int cannot represent non-integer value"
  | _ => Except.error "Int cannot represent non-integer value"

/-- GraphQLBoolean.serialize (graphql-core, external library): booleans pass
through, numbers are tested against zero, everything else raises. -/
def serialize_boolean : Value → Except String Bool
  | .vbool b => pure b
  | .vint n => pure (decide (n ≠ 0))
  | _ => Except.error "Boolean cannot represent a non boolean value"

/-- Python's is_iterable as used by graphql-core's ast_from_value (external
library): a collection that is neither a string nor a mapping. -/
def graphql_is_iterable : Value → Bool
  | .vlist _ => true
  | _ => false

/-- graphql.utilities.ast_from_value (graphql-core, external library):
encodes an internal value as a GraphQL value AST node against a declared
input type.  Non-null wrappers recurse and reject a null literal; an
explicit None becomes a null literal; Undefined yields no node; list types
map over iterable values and otherwise wrap a single item; input object
types require a mapping and encode the declared fields present in it,
dropping fields that yield no node; leaf types serialize the value (which
may raise) and wrap the result in the matching literal node, enum types
yielding no node for values that are not members.  The strawberry Unset
sentinel has no special case here: like any other unexpected object it
raises on the built-in scalars and yields no node on composite and enum
types. -/
def ast_from_value : Nat → Value → GType → Except String (Option Ast)
  | 0, _, _ => Except.error recursionErr
  | Nat.succ fuel, v, t =>
    match v, t with
    | v, .nonNull inner => do
        let a ← ast_from_value fuel v inner
        match a with
        | some .nullValue => pure none
        | x => pure x
    | .vnull, _ => pure (some .nullValue)
    | .vundef, _ => pure none
    | v, .listOf item =>
        if graphql_is_iterable v then
          match v with
          | .vlist elems => do
              let maybeNodes ← exceptMapM (fun e => ast_from_value fuel e item) elems
              pure (some (Ast.listValue (maybeNodes.filterMap id)))
          | _ => pure none
        else
          ast_from_value fuel v item
    | v, .inputObject _ fields =>
        match v with
        | .vdict entries => do
            let fieldNodes ← exceptMapM (fun nf =>
                match entries.lookup nf.1 with
                | none => pure (none : Option (String × Ast))
                | some fv => do
                    let a ← ast_from_value fuel fv nf.2
                    pure (a.map (fun x => (nf.1, x)))) fields
            pure (some (Ast.objectValue (fieldNodes.filterMap id)))
        | _ => pure none
    | v, .string => do
        pure (some (Ast.stringValue (← serialize_string v)))
    | v, .int => do
        pure (some (Ast.intValue (toString (← serialize_int v))))
    | v, .boolean => do
        pure (some (Ast.boolValue (← serialize_boolean v)))
    | v, .enumT _ members =>
        match v with
        | .venum name =>
            pure (if members.contains name then some (Ast.enumValue name) else none)
        | _ => pure none

/-- A GraphQL argument definition (graphql-core's GraphQLArgument, external
library): declared input type, declared default value (graphql-core's
Undefined when absent) and optional description and deprecation reason. -/
structure GraphQLArgument where
  type : GType
  default_value : Value
  description : Option String
  deprecation_reason : Option String

/-- A GraphQL directive definition (graphql-core's GraphQLDirective,
external library) as produced by the strawberry schema converter: name,
declared arguments as an ordered name-to-definition mapping, declared
locations and the repeatable flag. -/
structure GraphQLDirective where
  name : String
  args : List (String × GraphQLArgument)
  locations : List Location
  is_repeatable : Bool
  description : Option String

/-- Python dict.get(name, default) on the serialized argument values. -/
def dict_get (values : Value) (name : String) (dflt : Value) : Value :=
  match values with
  | .vdict entries => (entries.lookup name).getD dflt
  | _ => dflt

/-- Loop body of print_schema_directive_params (src/strawberry/printer.py
lines 57-67), accumulating the `name: literal` fragments in declaration
order of the directive's arguments: the supplied value is looked up with
the declared default as fallback; is_unset is applied to the argument
definition object (which is never the sentinel, see is_unset_argdef);
otherwise the value is encoded and the fragment kept when encoding yielded
a node and the fragment string is truthy. -/
def params_loop : Nat → Value → List (String × GraphQLArgument) → Except String (List String)
  | _, _, [] => pure []
  | fuel, values, (name, arg) :: rest => do
      let value := dict_get values name arg.default_value
      let frag : Option String ←
        if is_unset_argdef arg then
          pure none
        else do
          let ast ← ast_from_value fuel value arg.type
          match ast with
          | none => pure none
          | some a => do pure (some (name ++ ": " ++ (← print_ast fuel a)))
      let tail ← params_loop fuel values rest
      match frag with
      | some s => pure (if s == "" then tail else s :: tail)
      | none => pure tail

/-- strawberry.printer.print_schema_directive_params
(src/strawberry/printer.py lines 54-72): renders the parenthesised
parameter list of a directive application, or the empty string when no
argument produced a fragment. -/
def print_schema_directive_params (fuel : Nat) (directive : GraphQLDirective)
    (values : Value) : Except String String := do
  let params ← params_loop fuel values directive.args
  if params.isEmpty then
    pure ""
  else
    pure ("(" ++ String.intercalate ", " params ++ ")")

/-- Loop of the Directive Renderer exactly as the spec words it
(spec section 4.2, steps 1-4): look up the supplied value falling back to
the declared default; if the supplied value is the Unset sentinel, skip the
argument entirely; otherwise encode it against the declared type and emit
`name: literal` when encoding yields a literal.  Declared only to be
contrasted with params_loop, which is translated from the source. -/
def spec_params_loop : Nat → Value → List (String × GraphQLArgument) → Except String (List String)
  | _, _, [] => pure []
  | fuel, values, (name, arg) :: rest => do
      let value := dict_get values name arg.default_value
      if is_unset value then
        spec_params_loop fuel values rest
      else do
        let ast ← ast_from_value fuel value arg.type
        let tail ← spec_params_loop fuel values rest
        match ast with
        | none => pure tail
        | some a => do pure ((name ++ ": " ++ (← print_ast fuel a)) :: tail)

/-- The Directive Renderer's parameter list as the spec words it: empty
string when no argument produced output, else the comma-joined fragments in
parentheses. -/
def spec_print_schema_directive_params (fuel : Nat) (directive : GraphQLDirective)
    (values : Value) : Except String String := do
  let params ← spec_params_loop fuel values directive.args
  if params.isEmpty then
    pure ""
  else
    pure ("(" ++ String.intercalate ", " params ++ ")")

/-- Modelled from the spec: a Directive Application
(strawberry.schema_directive.StrawberrySchemaDirective together with its
decorated dataclass instance, strawberry/schema_directive.py, not under
src/).  It carries the declared locations, the GraphQLDirective that the
schema converter's from_schema_directive derives for it (name override and
camel-casing already applied, strawberry/schema/schema_converter.py, not
under src/), and the dataclass instance holding a concrete value for each
declared argument. -/
structure StrawberrySchemaDirective where
  locations : List Location
  gql_directive : GraphQLDirective
  instance_name : String
  instance_fields : List (String × Value)

/-- strawberry.printer.print_schema_directive (src/strawberry/printer.py
lines 75-91): converts the strawberry directive application to its
GraphQLDirective, serializes the dataclass instance with
_serialize_dataclass, renders the parameters and prepends a space, `@` and
the directive name. -/
def print_schema_directive (fuel : Nat) (d : StrawberrySchemaDirective) :
    Except String String := do
  let values ← _serialize_dataclass fuel (Value.vrecord d.instance_name d.instance_fields)
  let params ← print_schema_directive_params fuel d.gql_directive values
  pure (" @" ++ d.gql_directive.name ++ params)

/-- Modelled from the spec: the slice of strawberry.field.StrawberryField
(strawberry/field.py, not under src/) that the printer consumes — the
Directive Applications attached to the field. -/
structure StrawberryField where
  directives : List StrawberrySchemaDirective

/-- Modelled from the spec: the slice of
strawberry.types.types.TypeDefinition (strawberry/types/types.py, not under
src/) that the printer consumes — the extend flag, whether the type is an
input type, the optionally-absent list of attached Directive Applications,
and the higher-level fields keyed by their python_name for the
get_field lookup. -/
structure TypeDefinition where
  extend : Bool
  is_input : Bool
  directives : Option (List StrawberrySchemaDirective)
  fields : List (String × StrawberryField)

/-- Modelled from the spec: TypeDefinition.get_field, the name-based lookup
returning an optional richer field descriptor (spec sections 6 and 9). -/
def TypeDefinition.get_field (td : TypeDefinition) (python_name : String) :
    Option StrawberryField :=
  td.fields.lookup python_name

/-- strawberry.printer.print_field_directives (src/strawberry/printer.py
lines 94-109): without a correlated strawberry field nothing is printed;
otherwise the field's directive applications whose definitions declare at
least one field-level location are rendered in attachment order and the
fragments concatenated with no separator. -/
def print_field_directives (fuel : Nat) (field : Option StrawberryField) :
    Except String String :=
  match field with
  | none => pure ""
  | some f => do
      let directives := f.directives.filter (fun d =>
        d.locations.any (fun l =>
          [Location.FIELD_DEFINITION, Location.INPUT_FIELD_DEFINITION].contains l))
      let parts ← exceptMapM (print_schema_directive fuel) directives
      pure (String.join parts)

/-- A GraphQL field of an object type (graphql-core's GraphQLField, external
library) as the printer reads it: the rendered form of its type reference
(Python's f-string only ever applies str() to field.type), its arguments
when the field kind carries an `args` attribute (none models the absence of
the attribute, as on input fields), optional description, optional
deprecation reason, and the extensions dict carrying the correlated
python_name identifier. -/
structure GraphQLField where
  type_str : String
  args : Option (List (String × GraphQLArgument))
  description : Option String
  deprecation_reason : Option String
  extensions : Option (List (String × String))

/-- A GraphQL object type (graphql-core's GraphQLObjectType, external
library) as the printer reads it: name, optional description, names of the
implemented interfaces, and the ordered field map. -/
structure GraphQLObjectType where
  name : String
  description : Option String
  interfaces : List String
  fields : List (String × GraphQLField)

/-- A GraphQL input object type (graphql-core's GraphQLInputObjectType,
external library) as the printer reads it: name, optional description and
the ordered field map; input fields carry the same data as argument
definitions and are printed by the same print_input_value. -/
structure GraphQLInputObjectType where
  name : String
  description : Option String
  fields : List (String × GraphQLArgument)

/-- A named type of the schema's type map, tagged by the kind that the
dispatcher in src/strawberry/printer.py lines 194-208 distinguishes:
scalars, enums (modelled with plain value names), object types, input
object types, and the remaining kinds (interfaces, unions), which the
source hands unchanged to graphql-core's original print_type; for those the
model carries the text that the external generic printer produces. -/
inductive GraphQLNamedType where
  | scalarT (name : String) (description : Option String)
  | enumType (name : String) (description : Option String) (values : List String)
  | objectT (o : GraphQLObjectType)
  | inputObjectT (o : GraphQLInputObjectType)
  | otherT (name : String) (rendered : String)

/-- The name of a named type. -/
def GraphQLNamedType.name : GraphQLNamedType → String
  | .scalarT n _ => n
  | .enumType n _ _ => n
  | .objectT o => o.name
  | .inputObjectT o => o.name
  | .otherT n _ => n

/-- The underlying graphql-core schema object (schema._schema): its
directive definitions, its type map, the root operation type names and the
optional schema description. -/
structure GraphQLCoreSchema where
  directives : List GraphQLDirective
  type_map : List (String × GraphQLNamedType)
  query_type : Option String
  mutation_type : Option String
  subscription_type : Option String
  description : Option String

/-- Modelled from the spec: the strawberry BaseSchema collaborator (spec
section 6) — it owns the underlying graphql-core schema and exposes the
name-based accessor get_type_by_name returning an optional TypeDefinition. -/
structure BaseSchema where
  _schema : GraphQLCoreSchema
  types_by_name : List (String × TypeDefinition)

/-- Modelled from the spec: BaseSchema.get_type_by_name, the schema
accessor joining a bare GraphQL type back to its richer strawberry
TypeDefinition, or none when the name is unknown to it. -/
def BaseSchema.get_type_by_name (schema : BaseSchema) (name : String) :
    Option TypeDefinition :=
  schema.types_by_name.lookup name

/-- Truthiness of an optional Python string (None and "" are falsy). -/
def truthyStr : Option String → Bool
  | none => false
  | some s => s != ""

/-- graphql.utilities.print_schema.print_description (external library),
modelled for descriptions that print as one-line block strings with no
escapes needed: nothing for an absent description; otherwise the
triple-quoted description on its own line, prefixed by the indentation,
with a leading blank line when the item is indented and not the first of
its block. -/
def print_description (description : Option String) (indentation : String)
    (first_in_block : Bool) : String :=
  match description with
  | none => ""
  | some d =>
      let pre := if indentation != "" && !first_in_block then "\n" ++ indentation
                 else indentation
      pre ++ "\"\"\"" ++ d ++ "\"\"\"" ++ "\n"

/-- graphql-core's DEFAULT_DEPRECATION_REASON (external library). -/
def DEFAULT_DEPRECATION_REASON : String := "No longer supported"

/-- graphql.utilities.print_schema.print_deprecated (external library):
nothing when no reason is set; ` @deprecated` alone for the default
reason; otherwise ` @deprecated(reason: "...")`. -/
def print_deprecated (reason : Option String) : String :=
  match reason with
  | none => ""
  | some r =>
      if r ≠ DEFAULT_DEPRECATION_REASON then
        " @deprecated(reason: \"" ++ escapeGraphQLString r ++ "\")"
      else
        " @deprecated"

/-- graphql.utilities.print_schema.print_block (external library): the
brace-enclosed newline-joined items, or the empty string when there are no
items. -/
def print_block (items : List String) : String :=
  if items.isEmpty then ""
  else " \x7b\n" ++ String.intercalate "\n" items ++ "\n\x7d"

/-- graphql.utilities.print_schema.print_input_value (external library):
`name: Type`, extended with ` = default` when the declared default encodes
to a literal, followed by the deprecation clause. -/
def print_input_value (fuel : Nat) (name : String) (arg : GraphQLArgument) :
    Except String String := do
  let default_ast ← ast_from_value fuel arg.default_value arg.type
  let arg_decl := name ++ ": " ++ arg.type.toStr
  let arg_decl ←
    match default_ast with
    | some a => do pure (arg_decl ++ " = " ++ (← print_ast fuel a))
    | none => pure arg_decl
  pure (arg_decl ++ print_deprecated arg.deprecation_reason)

/-- graphql.utilities.print_schema.print_args (external library): empty for
no arguments; all on one line in parentheses when no argument has a truthy
description; otherwise one argument per line with descriptions, indented. -/
def print_args (fuel : Nat) (args : List (String × GraphQLArgument))
    (indentation : String) : Except String String := do
  if args.isEmpty then
    pure ""
  else if args.all (fun na => !truthyStr na.2.description) then do
    let parts ← exceptMapM (fun na => print_input_value fuel na.1 na.2) args
    pure ("(" ++ String.intercalate ", " parts ++ ")")
  else do
    let lines ← exceptMapM (fun ina =>
        do
          let iv ← print_input_value fuel ina.2.1 ina.2.2
          pure (print_description ina.2.2.description ("  " ++ indentation) (ina.1 == 0)
                ++ "  " ++ indentation ++ iv)) args.enum
    pure ("(\n" ++ String.intercalate "\n" lines ++ "\n" ++ indentation ++ ")")

/-- The correlated identifier of a field, src/strawberry/printer.py line
118: `field.extensions and field.extensions.get("python_name")` — an absent
(or empty, hence falsy) extensions dict yields nothing, otherwise the
optional entry under "python_name". -/
def python_name_of (field : GraphQLField) : Option String :=
  match field.extensions with
  | none => none
  | some exts => exts.lookup "python_name"

/-- The correlated strawberry field of a printed field,
src/strawberry/printer.py lines 120-124: looked up by its truthy
python_name on the strawberry type when both are present, and None
otherwise. -/
def strawberry_field_of (strawberry_type : Option TypeDefinition)
    (field : GraphQLField) : Option StrawberryField :=
  match strawberry_type, python_name_of field with
  | some td, some pn => if pn == "" then none else td.get_field pn
  | _, _ => none

/-- One line of a field block, the loop body of print_fields
(src/strawberry/printer.py lines 117-135): description (the first field is
first in its block), two-space indent, field name, argument list when the
field carries an `args` attribute, `: ` and the type signature, the
field-level directive fragments, and the deprecation clause. -/
def field_line (fuel : Nat) (strawberry_type : Option TypeDefinition) (i : Nat)
    (name : String) (field : GraphQLField) : Except String String := do
  let strawberry_field := strawberry_field_of strawberry_type field
  let args ←
    match field.args with
    | some as => print_args fuel as "  "
    | none => pure ""
  let dirs ← print_field_directives fuel strawberry_field
  pure (print_description field.description "  " (i == 0)
        ++ "  " ++ name
        ++ args
        ++ ": " ++ field.type_str
        ++ dirs
        ++ print_deprecated field.deprecation_reason)

/-- The list of rendered field lines of an object type, in the order the
fields appear on the type (the enumerate loop of print_fields,
src/strawberry/printer.py lines 115-135). -/
def print_fields_lines (fuel : Nat) (type_ : GraphQLObjectType)
    (schema : BaseSchema) : Except String (List String) :=
  let strawberry_type := schema.get_type_by_name type_.name
  exceptMapM (fun inf => field_line fuel strawberry_type inf.1 inf.2.1 inf.2.2)
    type_.fields.enum

/-- strawberry.printer.print_fields (src/strawberry/printer.py lines
112-137): the field block of an object type. -/
def print_fields (fuel : Nat) (type_ : GraphQLObjectType) (schema : BaseSchema) :
    Except String String := do
  pure (print_block (← print_fields_lines fuel type_ schema))

/-- strawberry.printer.print_extends (src/strawberry/printer.py lines
140-146): `extend ` when the schema accessor finds the strawberry type and
its extend flag is set, the empty string otherwise.  Only type_.name is
read from the GraphQL type object, so the model takes the name. -/
def print_extends (type_name : String) (schema : BaseSchema) : String :=
  match schema.get_type_by_name type_name with
  | some strawberry_type => if strawberry_type.extend then "extend " else ""
  | none => ""

/-- strawberry.printer.print_type_directives (src/strawberry/printer.py
lines 149-167): nothing when the schema accessor does not know the type;
otherwise the type's directive applications (an absent list counting as
empty) whose definitions declare at least one location in the allowed set —
INPUT_OBJECT for input types, OBJECT otherwise — rendered in attachment
order and concatenated with no separator.  Only type_.name is read from the
GraphQL type object, so the model takes the name. -/
def print_type_directives (fuel : Nat) (type_name : String) (schema : BaseSchema) :
    Except String String :=
  match schema.get_type_by_name type_name with
  | none => pure ""
  | some strawberry_type => do
      let allowed_locations :=
        if strawberry_type.is_input then [Location.INPUT_OBJECT] else [Location.OBJECT]
      let directives := (strawberry_type.directives.getD []).filter (fun d =>
        d.locations.any (fun l => allowed_locations.contains l))
      let parts ← exceptMapM (print_schema_directive fuel) directives
      pure (String.join parts)

/-- graphql.utilities.print_schema.print_implemented_interfaces (external
library): ` implements A & B` when any interfaces are implemented. -/
def print_implemented_interfaces (interfaces : List String) : String :=
  if interfaces.isEmpty then ""
  else " implements " ++ String.intercalate " & " interfaces

/-- strawberry.printer._print_object (src/strawberry/printer.py lines
170-178): description, optional `extend ` prefix, `type ` and the name,
implemented interfaces, type-level directives, field block. -/
def _print_object (fuel : Nat) (type_ : GraphQLObjectType) (schema : BaseSchema) :
    Except String String := do
  let dirs ← print_type_directives fuel type_.name schema
  let fields ← print_fields fuel type_ schema
  pure (print_description type_.description "" true
        ++ print_extends type_.name schema
        ++ "type " ++ type_.name
        ++ print_implemented_interfaces type_.interfaces
        ++ dirs
        ++ fields)

/-- strawberry.printer._print_input_object (src/strawberry/printer.py lines
181-191): description, `input ` and the name, type-level directives, and
the field block of input values; no extend prefix and no interface clause
appear for this kind. -/
def _print_input_object (fuel : Nat) (type_ : GraphQLInputObjectType)
    (schema : BaseSchema) : Except String String := do
  let fields ← exceptMapM (fun inf => do
      let iv ← print_input_value fuel inf.2.1 inf.2.2
      pure (print_description inf.2.2.description "  " (inf.1 == 0) ++ "  " ++ iv))
    type_.fields.enum
  let dirs ← print_type_directives fuel type_.name schema
  pure (print_description type_.description "" true
        ++ "input " ++ type_.name
        ++ dirs
        ++ print_block fields)

/-- graphql.utilities.print_schema.print_scalar (external library),
modelled without the specifiedBy clause: description and `scalar name`. -/
def print_scalar (name : String) (description : Option String) : String :=
  print_description description "" true ++ "scalar " ++ name

/-- graphql.utilities.print_schema.print_enum (external library), modelled
with plain value names: description, `enum name` and the block of values. -/
def print_enum (name : String) (description : Option String)
    (values : List String) : String :=
  print_description description "" true ++ "enum " ++ name
    ++ print_block (values.map (fun v => "  " ++ v))

/-- strawberry.printer._print_type (src/strawberry/printer.py lines
194-208): dispatch in source order — scalars first (so that a scalar is
never printed as an input type), then enums, object types, input object
types, and graphql-core's original print_type for every remaining kind. -/
def _print_type (fuel : Nat) (t : GraphQLNamedType) (schema : BaseSchema) :
    Except String String :=
  match t with
  | .scalarT n d => pure (print_scalar n d)
  | .enumType n d vs => pure (print_enum n d vs)
  | .objectT o => _print_object fuel o schema
  | .inputObjectT o => _print_input_object fuel o schema
  | .otherT _ rendered => pure rendered

/-- graphql.type.is_specified_directive (external library): whether a
directive is one of the built-in specified directives. -/
def is_specified_directive (d : GraphQLDirective) : Bool :=
  ["include", "skip", "deprecated", "specifiedBy"].contains d.name

/-- The name of a location as printed in a directive definition. -/
def Location.locationName : Location → String
  | .SCHEMA => "SCHEMA"
  | .SCALAR => "SCALAR"
  | .OBJECT => "OBJECT"
  | .FIELD_DEFINITION => "FIELD_DEFINITION"
  | .ARGUMENT_DEFINITION => "ARGUMENT_DEFINITION"
  | .INTERFACE => "INTERFACE"
  | .UNION => "UNION"
  | .ENUM => "ENUM"
  | .ENUM_VALUE => "ENUM_VALUE"
  | .INPUT_OBJECT => "INPUT_OBJECT"
  | .INPUT_FIELD_DEFINITION => "INPUT_FIELD_DEFINITION"

/-- graphql.utilities.print_schema.print_directive (external library):
description, `@name`, argument list, optional ` repeatable`, and the
pipe-joined locations after ` on `. -/
def print_directive (fuel : Nat) (d : GraphQLDirective) : Except String String := do
  let args ← print_args fuel d.args ""
  pure (print_description d.description "" true
        ++ "@" ++ d.name
        ++ args
        ++ (if d.is_repeatable then " repeatable" else "")
        ++ " on "
        ++ String.intercalate " | " (d.locations.map Location.locationName))

/-- graphql.utilities.print_schema.is_schema_of_common_names (external
library): every present root operation type uses its conventional name. -/
def is_schema_of_common_names (s : GraphQLCoreSchema) : Bool :=
  (match s.query_type with | some n => n == "Query" | none => true)
  && (match s.mutation_type with | some n => n == "Mutation" | none => true)
  && (match s.subscription_type with | some n => n == "Subscription" | none => true)

/-- graphql.utilities.print_schema.print_schema_definition (external
library): nothing when the schema has no description and uses the common
root names; otherwise the `schema` block listing the present roots. -/
def print_schema_definition (s : GraphQLCoreSchema) : Option String :=
  if s.description = none ∧ is_schema_of_common_names s then none
  else
    let operation_types :=
      (match s.query_type with | some n => ["  query: " ++ n] | none => [])
      ++ (match s.mutation_type with | some n => ["  mutation: " ++ n] | none => [])
      ++ (match s.subscription_type with | some n => ["  subscription: " ++ n] | none => [])
    some (print_description s.description "" true
          ++ "schema \x7b\n" ++ String.intercalate "\n" operation_types ++ "\n\x7d")

/-- graphql.utilities.print_schema.is_defined_type (external library): a
type that is neither an introspection meta-type (name starting with two
underscores) nor one of the specified built-in scalars. -/
def is_defined_type (t : GraphQLNamedType) : Bool :=
  !(t.name.startsWith "__")
  && !(match t with
       | .scalarT n _ => ["String", "Int", "Float", "Boolean", "ID"].contains n
       | _ => false)

/-- The named types print_schema prints, in the order it prints them
(src/strawberry/printer.py line 219): the type map's values taken by keys
sorted lexicographically, restricted to the user-defined ones.  Python's
sorted() on strings is modelled by insertionSort with the lexicographic
order. -/
def schema_sorted_types (core : GraphQLCoreSchema) : List GraphQLNamedType :=
  ((List.insertionSort (· ≤ ·) (core.type_map.map Prod.fst)).filterMap
      (fun k => core.type_map.lookup k)).filter is_defined_type

/-- strawberry.printer.print_schema (src/strawberry/printer.py lines
211-227): the optional schema definition block, the non-specified
directive definitions and the defined named types in sorted name order,
joined by blank lines. -/
def print_schema (fuel : Nat) (schema : BaseSchema) : Except String String := do
  let core := schema._schema
  let directives := core.directives.filter (fun d => !is_specified_directive d)
  let types := schema_sorted_types core
  let head :=
    match print_schema_definition core with
    | some s => [s]
    | none => []
  let dir_blocks ← exceptMapM (print_directive fuel) directives
  let type_blocks ← exceptMapM (fun t => _print_type fuel t schema) types
  pure (String.intercalate "\n\n" (head ++ dir_blocks ++ type_blocks))

/-- Concatenating strings concatenates their character lists. -/
theorem string_append_data (a b : String) : (a ++ b).data = a.data ++ b.data := rfl

/-- The empty string is a left identity of concatenation. -/
theorem string_empty_append (s : String) : "" ++ s = s := rfl

/-- Strings with the same character list are equal. -/
theorem string_ext (a b : String) (h : a.data = b.data) : a = b := by
  cases a
  cases b
  exact congrArg String.mk (by simpa using h)

/-- A successful exceptMapM relates input and output pointwise and in
order. -/
theorem exceptMapM_ok_forall2 {α β : Type} (f : α → Except String β) :
    ∀ (l : List α) (ys : List β), exceptMapM f l = Except.ok ys →
      List.Forall₂ (fun a b => f a = Except.ok b) l ys := by
  intro l
  induction l with
  | nil =>
    intro ys h
    simp [exceptMapM, pure, Except.pure] at h
    subst h
    exact List.Forall₂.nil
  | cons a as ih =>
    intro ys h
    simp only [exceptMapM] at h
    cases hfa : f a with
    | error e => rw [hfa] at h; simp [Bind.bind, Except.bind] at h
    | ok b =>
      rw [hfa] at h
      cases hrest : exceptMapM f as with
      | error e => rw [hrest] at h; simp [Bind.bind, Except.bind] at h
      | ok bs =>
        rw [hrest] at h
        simp [Bind.bind, Except.bind, pure, Except.pure] at h
        subst h
        exact List.Forall₂.cons hfa (ih bs hrest)

/-- Serializing a one-character string never terminates: iterating the
string yields the very same one-character string again, so every recursion
budget is exhausted (Python raises RecursionError). -/
theorem serialize_one_char_diverges (c : Char) :
    ∀ n, _serialize_dataclass n (Value.vstr (String.mk [c])) = Except.error recursionErr := by
  intro n
  induction n with
  | zero => rfl
  | succ n ih =>
    simp only [_serialize_dataclass]
    simp [is_dataclass, isinstance_iterable, iterElems, exceptMapM, ih,
      Bind.bind, Except.bind]

/-- Serializing the one-character string "k" never terminates. -/
theorem serialize_str_k_diverges :
    ∀ n, _serialize_dataclass n (Value.vstr "k") = Except.error recursionErr := by
  intro n
  have h := serialize_one_char_diverges 'k' n
  simpa using h

def c1_arg : GraphQLArgument :=
  { type := GType.string
    default_value := Value.vstr "declared-default"
    description := none
    deprecation_reason := none }

def c1_directive : GraphQLDirective :=
  { name := "sensitive"
    args := [("reason", c1_arg)]
    locations := [Location.FIELD_DEFINITION]
    is_repeatable := false
    description := none }

def c1_values : Value := Value.vdict [("reason", Value.unset)]

/-- C1: the claim says an argument whose supplied value is the Unset
sentinel is always omitted from the printed parameter list.  The source
(src/strawberry/printer.py line 60) applies is_unset to the argument
definition object instead of the supplied value, so the sentinel is never
skipped: it flows into the literal encoder, which raises for a String-typed
argument with a non-null declared default, instead of omitting the
argument; the renderer worded as the spec demands returns the empty
parameter list on the same input. -/
theorem C1_unset_argument_not_skipped :
    print_schema_directive_params 100 c1_directive c1_values
      = Except.error "String cannot represent value"
    ∧ spec_print_schema_directive_params 100 c1_directive c1_values = Except.ok "" := by
  constructor <;> rfl

/-- C2: the claim says a mapping value serializes to a mapping with the
same keys in the same order.  Because the Iterable test on
src/strawberry/printer.py line 46 precedes the Mapping test on line 48 and
Python dicts are iterable, a dict is instead serialized as the list of its
serialized keys (the Mapping branch is unreachable): a dict with the empty
string as its only key becomes a list holding an empty list, and a dict
with the one-character key "k" makes the serializer recurse forever on that
key. -/
theorem C2_mapping_serialized_as_key_list :
    _serialize_dataclass 10 (Value.vdict [("", Value.vint 1)])
      = Except.ok (Value.vlist [Value.vlist []])
    ∧ Value.vlist [Value.vlist []] ≠ Value.vdict [("", Value.vint 1)]
    ∧ ∀ n, _serialize_dataclass n (Value.vdict [("k", Value.vint 1)])
        = Except.error recursionErr := by
  refine ⟨rfl, fun h => Value.noConfusion h, ?_⟩
  intro n
  cases n with
  | zero => rfl
  | succ n =>
    simp only [_serialize_dataclass]
    simp [is_dataclass, isinstance_iterable, iterElems, exceptMapM,
      serialize_str_k_diverges n, Bind.bind, Except.bind]

/-- C3: the claim says the value serializer terminates on every finite
acyclic non-dataclass value, in particular on plain scalar strings.  A
nonempty string is iterable and iterating it yields one-character strings,
each of which iterates to itself, so on the scalar string "a" the source
recurses until the interpreter's recursion limit is hit, for every limit. -/
theorem C3_serializer_diverges_on_scalar_string :
    ∀ n, _serialize_dataclass n (Value.vstr "a") = Except.error recursionErr := by
  intro n
  have h := serialize_one_char_diverges 'a' n
  simpa using h

/-- C4: the claim says every scalar — string, number, boolean or enum
member — is returned unchanged.  Numbers, booleans and enum members are,
but a string is caught by the Iterable branch: the empty string comes back
as an empty list rather than unchanged (and nonempty strings do not come
back at all, see the C3 theorem). -/
theorem C4_string_scalar_not_returned_unchanged :
    _serialize_dataclass 5 (Value.vstr "") = Except.ok (Value.vlist [])
    ∧ Value.vlist [] ≠ Value.vstr ""
    ∧ _serialize_dataclass 5 (Value.vint 7) = Except.ok (Value.vint 7)
    ∧ _serialize_dataclass 5 (Value.vbool true) = Except.ok (Value.vbool true)
    ∧ _serialize_dataclass 5 (Value.venum "RED") = Except.ok (Value.venum "RED") :=
  ⟨rfl, fun h => Value.noConfusion h, rfl, rfl, rfl⟩

/-- Binding a pure value just applies the continuation. -/
theorem except_pure_bind {α β : Type} (a : α) (f : α → Except String β) :
    (pure a >>= f : Except String β) = f a := rfl

/-- A successful bind in the Except monad factors through a successful
first computation. -/
theorem except_bind_ok {α β : Type} (e : Except String α) (f : α → Except String β)
    (b : β) (h : (e >>= f) = Except.ok b) :
    ∃ a, e = Except.ok a ∧ f a = Except.ok b := by
  cases e with
  | error err => simp [Bind.bind, Except.bind] at h
  | ok a => exact ⟨a, rfl, by simpa [Bind.bind, Except.bind] using h⟩

def c5_input_td : TypeDefinition :=
  { extend := true
    is_input := true
    directives := none
    fields := [] }

def c5_input_type : GraphQLInputObjectType :=
  { name := "I"
    description := none
    fields := [("x",
      { type := GType.string
        default_value := Value.vundef
        description := none
        deprecation_reason := none })] }

def c5_object_td : TypeDefinition :=
  { extend := true
    is_input := false
    directives := none
    fields := [] }

def c5_object_type : GraphQLObjectType :=
  { name := "U"
    description := none
    interfaces := []
    fields := [] }

def empty_core : GraphQLCoreSchema :=
  { directives := []
    type_map := []
    query_type := some "Query"
    mutation_type := none
    subscription_type := none
    description := none }

def c5_schema : BaseSchema :=
  { _schema := empty_core
    types_by_name := [("I", c5_input_td), ("U", c5_object_td)] }

/-- C5 counterexample: an input object type whose strawberry definition has
the extend flag set still prints without any extend prefix, because
_print_input_object never consults print_extends; the claim's
"input-object types print `extend ` iff the extend flag is set" is false at
this input. -/
theorem C5_counterexample :
    c5_schema.get_type_by_name "I" = some c5_input_td
    ∧ c5_input_td.extend = true
    ∧ _print_input_object 100 c5_input_type c5_schema
        = Except.ok "input I \x7b\n  x: String\n\x7d"
    ∧ ¬ ∃ rest, ("input I \x7b\n  x: String\n\x7d" : String) = "extend " ++ rest := by
  refine ⟨rfl, rfl, rfl, ?_⟩
  rintro ⟨rest, h⟩
  have h2 := congrArg (fun x => x.data.headD ' ') h
  simp only [string_append_data] at h2
  simp at h2

/-- C5 (amended): for every object type without a description, the printed
block begins with `extend ` exactly when the schema accessor finds the
strawberry type definition and its extend flag is set; an input-object
type's block (without a description) never begins with `extend `,
whatever its extend flag — the source prints no extend prefix for the
input kind. -/
theorem C5_extend_prefix (o : GraphQLObjectType) (inp : GraphQLInputObjectType)
    (schema : BaseSchema) (fuel : Nat)
    (ho : o.description = none) (hi : inp.description = none)
    (s t : String)
    (hs : _print_object fuel o schema = Except.ok s)
    (ht : _print_input_object fuel inp schema = Except.ok t) :
    ((∃ rest, s = "extend " ++ rest) ↔
      ∃ td, schema.get_type_by_name o.name = some td ∧ td.extend = true)
    ∧ ¬ ∃ rest, t = "extend " ++ rest := by
  constructor
  · simp only [_print_object] at hs
    obtain ⟨dirs, hdir, hs2⟩ := except_bind_ok _ _ _ hs
    obtain ⟨fields, hflds, hs3⟩ := except_bind_ok _ _ _ hs2
    simp only [pure, Except.pure, Except.ok.injEq] at hs3
    rw [ho] at hs3
    simp only [print_description, string_empty_append] at hs3
    have hseq : s = print_extends o.name schema ++ "type " ++ o.name
        ++ print_implemented_interfaces o.interfaces ++ dirs ++ fields := hs3.symm
    cases hget : schema.get_type_by_name o.name with
    | none =>
      have hpe : print_extends o.name schema = "" := by simp [print_extends, hget]
      rw [hpe, string_empty_append] at hseq
      constructor
      · rintro ⟨rest, hr⟩
        rw [hseq] at hr
        have h2 := congrArg (fun x => x.data.headD ' ') hr
        simp only [string_append_data] at h2
        simp at h2
      · rintro ⟨td, htd, -⟩
        exact Option.noConfusion htd
    | some td =>
      cases hext : td.extend with
      | true =>
        have hpe : print_extends o.name schema = "extend " := by
          simp [print_extends, hget, hext]
        rw [hpe] at hseq
        constructor
        · intro _
          exact ⟨td, rfl, hext⟩
        · intro _
          refine ⟨"type " ++ o.name ++ print_implemented_interfaces o.interfaces
            ++ dirs ++ fields, ?_⟩
          rw [hseq]
          refine string_ext _ _ ?_
          simp [string_append_data]
      | false =>
        have hpe : print_extends o.name schema = "" := by
          simp [print_extends, hget, hext]
        rw [hpe, string_empty_append] at hseq
        constructor
        · rintro ⟨rest, hr⟩
          rw [hseq] at hr
          have h2 := congrArg (fun x => x.data.headD ' ') hr
          simp only [string_append_data] at h2
          simp at h2
        · rintro ⟨td', htd', hext'⟩
          have htd2 : td = td' := by injection htd'
          rw [← htd2, hext] at hext'
          exact Bool.noConfusion hext'
  · simp only [_print_input_object] at ht
    obtain ⟨fields, hflds, ht2⟩ := except_bind_ok _ _ _ ht
    obtain ⟨dirs, hdir, ht3⟩ := except_bind_ok _ _ _ ht2
    simp only [pure, Except.pure, Except.ok.injEq] at ht3
    rw [hi] at ht3
    simp only [print_description, string_empty_append] at ht3
    rintro ⟨rest, hr⟩
    rw [← ht3] at hr
    have h2 := congrArg (fun x => x.data.headD ' ') hr
    simp only [string_append_data] at h2
    simp at h2

/-- C5 witness: the amended statement applied to a concrete extended object
type and a concrete extended input type. -/
theorem C5_extend_prefix_witness :
    ((∃ rest, "extend type U" = "extend " ++ rest) ↔
      ∃ td, c5_schema.get_type_by_name c5_object_type.name = some td ∧ td.extend = true)
    ∧ ¬ ∃ rest, ("input I \x7b\n  x: String\n\x7d" : String) = "extend " ++ rest :=
  C5_extend_prefix c5_object_type c5_input_type c5_schema 100 rfl rfl
    "extend type U" "input I \x7b\n  x: String\n\x7d" rfl rfl

/-- Looking a key up in an association list finds one of its entries. -/
theorem lookup_mem {β : Type} (l : List (String × β)) :
    ∀ (k : String) (t : β), l.lookup k = some t → (k, t) ∈ l := by
  induction l with
  | nil => intro k t h; simp [List.lookup] at h
  | cons a as ih =>
    intro k t h
    simp only [List.lookup] at h
    cases hk : k == a.1 with
    | true =>
      rw [hk] at h
      simp at h
      subst h
      have hka : k = a.1 := beq_iff_eq.mp hk
      subst hka
      exact List.mem_cons_self _ _
    | false =>
      rw [hk] at h
      exact List.mem_cons_of_mem _ (ih k t h)

/-- The names of the types found by looking keys up in a type map whose
entries are keyed by their names form a sublist of those keys, in order. -/
theorem filterMap_lookup_names_sublist (tm : List (String × GraphQLNamedType))
    (wf : ∀ kt ∈ tm, GraphQLNamedType.name kt.2 = kt.1) :
    ∀ keys : List String,
      List.Sublist
        ((keys.filterMap (fun k => tm.lookup k)).map GraphQLNamedType.name) keys := by
  intro keys
  induction keys with
  | nil => simp
  | cons k ks ih =>
    cases hk : tm.lookup k with
    | none =>
      simp only [List.filterMap_cons, hk]
      exact List.Sublist.cons k ih
    | some t =>
      have hname : t.name = k := wf (k, t) (lookup_mem tm k t hk)
      simp only [List.filterMap_cons, hk, List.map_cons, hname]
      exact List.Sublist.cons₂ k ih

/-- A `name: literal` fragment is never the empty string. -/
theorem frag_beq_empty_false (n x : String) : (n ++ ": " ++ x == "") = false := by
  rw [beq_eq_false_iff_ne]
  intro h
  have h2 := congrArg (fun s => s.data.length) h
  simp [string_append_data] at h2

/-- C6: named type blocks are printed in lexicographically sorted name
order (for a type map whose entries are keyed by their type's name, the
name sequence of schema_sorted_types is sorted); field lines are produced
in exactly the order the fields are declared on the type, never sorted
(the i-th printed line is the rendering of the i-th declared field); and
the fragments of a directive application's parameter list follow the
declaration order of the directive's arguments (they render an
order-preserving sublist of the declared arguments, skipping only
arguments that produced no literal). -/
theorem C6_ordering :
    (∀ core : GraphQLCoreSchema,
       (∀ kt ∈ core.type_map, GraphQLNamedType.name kt.2 = kt.1) →
       List.Sorted (· ≤ ·) ((schema_sorted_types core).map GraphQLNamedType.name))
    ∧ (∀ (fuel : Nat) (type_ : GraphQLObjectType) (schema : BaseSchema)
         (lines : List String),
       print_fields_lines fuel type_ schema = Except.ok lines →
       List.Forall₂ (fun inf line =>
           field_line fuel (schema.get_type_by_name type_.name) inf.1 inf.2.1 inf.2.2
             = Except.ok line)
         type_.fields.enum lines
       ∧ print_fields fuel type_ schema = Except.ok (print_block lines))
    ∧ (∀ (fuel : Nat) (values : Value) (args : List (String × GraphQLArgument))
         (ps : List String),
       params_loop fuel values args = Except.ok ps →
       ∃ sub, List.Sublist sub args ∧
         List.Forall₂ (fun na p => ∃ a lit,
             ast_from_value fuel (dict_get values na.1 na.2.default_value) na.2.type
               = Except.ok (some a)
             ∧ print_ast fuel a = Except.ok lit
             ∧ p = na.1 ++ ": " ++ lit) sub ps) := by
  refine ⟨?_, ?_, ?_⟩
  · intro core wf
    have hsorted : List.Sorted (· ≤ ·)
        (List.insertionSort (· ≤ ·) (core.type_map.map Prod.fst)) :=
      List.sorted_insertionSort _ _
    have h1 := filterMap_lookup_names_sublist core.type_map wf
      (List.insertionSort (· ≤ ·) (core.type_map.map Prod.fst))
    have h2 : List.Sublist
        ((schema_sorted_types core).map GraphQLNamedType.name)
        (((List.insertionSort (· ≤ ·) (core.type_map.map Prod.fst)).filterMap
            (fun k => core.type_map.lookup k)).map GraphQLNamedType.name) :=
      List.Sublist.map _ (List.filter_sublist _)
    exact hsorted.sublist (h2.trans h1)
  · intro fuel type_ schema lines h
    refine ⟨exceptMapM_ok_forall2 _ _ _ h, ?_⟩
    simp only [print_fields]
    rw [show print_fields_lines fuel type_ schema = Except.ok lines from h]
    rfl
  · intro fuel values args
    induction args with
    | nil =>
      intro ps h
      simp [params_loop, pure, Except.pure] at h
      subst h
      exact ⟨[], List.nil_sublist _, List.Forall₂.nil⟩
    | cons na rest ih =>
      obtain ⟨name, arg⟩ := na
      intro ps h
      simp only [params_loop, is_unset_argdef, Bool.false_eq_true, if_false] at h
      obtain ⟨ast, hast, h2⟩ := except_bind_ok _ _ _ h
      cases ast with
      | none =>
        simp only [except_pure_bind] at h2
        obtain ⟨tail, htail, h3⟩ := except_bind_ok _ _ _ h2
        obtain ⟨sub, hsub, hfa⟩ := ih tail htail
        simp only [pure, Except.pure, Except.ok.injEq] at h3
        subst h3
        exact ⟨sub, List.Sublist.cons _ hsub, hfa⟩
      | some a =>
        obtain ⟨lit, hlit, h3⟩ := except_bind_ok _ _ _ h2
        simp only [except_pure_bind] at h3
        obtain ⟨tail, htail, h4⟩ := except_bind_ok _ _ _ h3
        obtain ⟨sub, hsub, hfa⟩ := ih tail htail
        rw [frag_beq_empty_false] at h4
        simp only [Bool.false_eq_true, if_false, pure, Except.pure, Except.ok.injEq] at h4
        subst h4
        exact ⟨(name, arg) :: sub, List.Sublist.cons₂ _ hsub,
          List.Forall₂.cons ⟨a, lit, hast, hlit, rfl⟩ hfa⟩

def c6_field : GraphQLField :=
  { type_str := "String!"
    args := none
    description := none
    deprecation_reason := none
    extensions := none }

def c6_object : GraphQLObjectType :=
  { name := "Query"
    description := none
    interfaces := []
    fields := [("firstName", c6_field)] }

def c6_core : GraphQLCoreSchema :=
  { directives := []
    type_map := [("Query", GraphQLNamedType.objectT c6_object),
                 ("Alpha", GraphQLNamedType.scalarT "Alpha" none)]
    query_type := some "Query"
    mutation_type := none
    subscription_type := none
    description := none }

def c6_schema : BaseSchema :=
  { _schema := c6_core
    types_by_name := [] }

def c6_arg : GraphQLArgument :=
  { type := GType.string
    default_value := Value.vundef
    description := none
    deprecation_reason := none }

def c6_args : List (String × GraphQLArgument) := [("reason", c6_arg)]

def c6_values : Value := Value.vdict [("reason", Value.vstr "GDPR")]

/-- C6 witness: the ordering statement applied to a concrete two-type
schema, a concrete one-field object type and a concrete one-argument
directive parameter list. -/
theorem C6_ordering_witness :
    List.Sorted (· ≤ ·) ((schema_sorted_types c6_core).map GraphQLNamedType.name)
    ∧ (List.Forall₂ (fun inf line =>
          field_line 20 (c6_schema.get_type_by_name c6_object.name) inf.1 inf.2.1 inf.2.2
            = Except.ok line)
        c6_object.fields.enum ["  firstName: String!"]
       ∧ print_fields 20 c6_object c6_schema = Except.ok (print_block ["  firstName: String!"]))
    ∧ ∃ sub, List.Sublist sub c6_args ∧
        List.Forall₂ (fun na p => ∃ a lit,
            ast_from_value 20 (dict_get c6_values na.1 na.2.default_value) na.2.type
              = Except.ok (some a)
            ∧ print_ast 20 a = Except.ok lit
            ∧ p = na.1 ++ ": " ++ lit) sub ["reason: \"GDPR\""] :=
  ⟨C6_ordering.1 c6_core (by decide),
   C6_ordering.2.1 20 c6_object c6_schema ["  firstName: String!"] rfl,
   C6_ordering.2.2 20 c6_values c6_args ["reason: \"GDPR\""] rfl⟩

/-- C7: only directive applications whose definitions declare at least one
location in the allowed set for the printing context are rendered — the
field-level set being FIELD_DEFINITION and INPUT_FIELD_DEFINITION, the
type-level set INPUT_OBJECT for input types and OBJECT otherwise; the
selected applications render in attachment order (an order-preserving
filter) and the fragments concatenate with no separator; and the selection
test holds exactly when some declared location lies in the allowed set. -/
theorem C7_location_filtering :
    (∀ (fuel : Nat) (f : StrawberryField) (s : String),
       print_field_directives fuel (some f) = Except.ok s →
       ∃ frags,
         List.Forall₂ (fun d frag => print_schema_directive fuel d = Except.ok frag)
           (f.directives.filter (fun d => d.locations.any (fun l =>
             [Location.FIELD_DEFINITION, Location.INPUT_FIELD_DEFINITION].contains l)))
           frags
         ∧ s = String.join frags)
    ∧ (∀ (fuel : Nat) (type_name : String) (schema : BaseSchema)
         (td : TypeDefinition) (s : String),
       schema.get_type_by_name type_name = some td →
       print_type_directives fuel type_name schema = Except.ok s →
       ∃ frags,
         List.Forall₂ (fun d frag => print_schema_directive fuel d = Except.ok frag)
           ((td.directives.getD []).filter (fun d => d.locations.any (fun l =>
             (if td.is_input then [Location.INPUT_OBJECT]
              else [Location.OBJECT]).contains l)))
           frags
         ∧ s = String.join frags)
    ∧ (∀ (d : StrawberrySchemaDirective) (allowed : List Location),
       d.locations.any (fun l => allowed.contains l) = true ↔
         ∃ l ∈ d.locations, l ∈ allowed) := by
  refine ⟨?_, ?_, ?_⟩
  · intro fuel f s h
    simp only [print_field_directives] at h
    obtain ⟨parts, hp, h2⟩ := except_bind_ok _ _ _ h
    simp only [pure, Except.pure, Except.ok.injEq] at h2
    exact ⟨parts, exceptMapM_ok_forall2 _ _ _ hp, h2.symm⟩
  · intro fuel type_name schema td s hget h
    simp only [print_type_directives, hget] at h
    obtain ⟨parts, hp, h2⟩ := except_bind_ok _ _ _ h
    simp only [pure, Except.pure, Except.ok.injEq] at h2
    exact ⟨parts, exceptMapM_ok_forall2 _ _ _ hp, h2.symm⟩
  · intro d allowed
    simp

def c7_arg : GraphQLArgument :=
  { type := GType.string
    default_value := Value.vundef
    description := none
    deprecation_reason := none }

def c7_field_dir : StrawberrySchemaDirective :=
  { locations := [Location.FIELD_DEFINITION]
    gql_directive :=
      { name := "sensitive"
        args := [("reason", c7_arg)]
        locations := [Location.FIELD_DEFINITION]
        is_repeatable := false
        description := none }
    instance_name := "Sensitive"
    instance_fields := [("reason", Value.vstr "GDPR")] }

def c7_obj_dir : StrawberrySchemaDirective :=
  { locations := [Location.OBJECT]
    gql_directive :=
      { name := "tag"
        args := []
        locations := [Location.OBJECT]
        is_repeatable := false
        description := none }
    instance_name := "Tag"
    instance_fields := [] }

def c7_field : StrawberryField :=
  { directives := [c7_field_dir, c7_obj_dir] }

def c7_td : TypeDefinition :=
  { extend := false
    is_input := false
    directives := some [c7_obj_dir, c7_field_dir]
    fields := [] }

def c7_schema : BaseSchema :=
  { _schema := empty_core
    types_by_name := [("T", c7_td)] }

/-- C7 witness: the filtering statement applied to a concrete field
carrying one field-level and one object-level directive, and to a concrete
object type carrying the same two applications. -/
theorem C7_location_filtering_witness :
    (∃ frags,
       List.Forall₂ (fun d frag => print_schema_directive 30 d = Except.ok frag)
         (c7_field.directives.filter (fun d => d.locations.any (fun l =>
           [Location.FIELD_DEFINITION, Location.INPUT_FIELD_DEFINITION].contains l)))
         frags
       ∧ " @sensitive(reason: \"GDPR\")" = String.join frags)
    ∧ (∃ frags,
       List.Forall₂ (fun d frag => print_schema_directive 30 d = Except.ok frag)
         ((c7_td.directives.getD []).filter (fun d => d.locations.any (fun l =>
           (if c7_td.is_input then [Location.INPUT_OBJECT]
            else [Location.OBJECT]).contains l)))
         frags
       ∧ " @tag" = String.join frags)
    ∧ (c7_field_dir.locations.any (fun l =>
         [Location.FIELD_DEFINITION, Location.INPUT_FIELD_DEFINITION].contains l) = true ↔
       ∃ l ∈ c7_field_dir.locations,
         l ∈ [Location.FIELD_DEFINITION, Location.INPUT_FIELD_DEFINITION]) :=
  ⟨C7_location_filtering.1 30 c7_field " @sensitive(reason: \"GDPR\")" rfl,
   C7_location_filtering.2.1 30 "T" c7_schema c7_td " @tag" rfl rfl,
   C7_location_filtering.2.2 c7_field_dir _⟩

/-- Binding an ok value just applies the continuation. -/
theorem except_ok_bind {α β : Type} (a : α) (f : α → Except String β) :
    (Except.ok a >>= f : Except String β) = f a := rfl

/-- C8: the rendered parameter segment is empty when no argument produced a
fragment and otherwise wraps the comma-and-space-joined fragments in
parentheses; the full rendered directive text is a space, `@`, the
directive's name, then that parameter segment. -/
theorem C8_directive_format :
    (∀ (fuel : Nat) (directive : GraphQLDirective) (values : Value) (ps : List String),
       params_loop fuel values directive.args = Except.ok ps →
       print_schema_directive_params fuel directive values =
         Except.ok (if ps.isEmpty then ""
                    else "(" ++ String.intercalate ", " ps ++ ")"))
    ∧ (∀ (fuel : Nat) (d : StrawberrySchemaDirective) (values : Value) (params : String),
       _serialize_dataclass fuel (Value.vrecord d.instance_name d.instance_fields)
         = Except.ok values →
       print_schema_directive_params fuel d.gql_directive values = Except.ok params →
       print_schema_directive fuel d
         = Except.ok (" @" ++ d.gql_directive.name ++ params)) := by
  constructor
  · intro fuel directive values ps h
    simp only [print_schema_directive_params]
    rw [h, except_ok_bind]
    cases ps with
    | nil => rfl
    | cons p rest => rfl
  · intro fuel d values params h1 h2
    simp only [print_schema_directive]
    rw [h1, except_ok_bind, h2, except_ok_bind]
    rfl

/-- C8 witness: the format statement applied to a concrete zero-argument
directive, a concrete one-argument directive, and the full directive text
of the latter. -/
theorem C8_directive_format_witness :
    print_schema_directive_params 30 c7_obj_dir.gql_directive (Value.vdict [])
      = Except.ok ""
    ∧ print_schema_directive_params 30 c7_field_dir.gql_directive
        (Value.vdict [("reason", Value.vstr "GDPR")])
      = Except.ok "(reason: \"GDPR\")"
    ∧ print_schema_directive 30 c7_field_dir
      = Except.ok " @sensitive(reason: \"GDPR\")" :=
  ⟨C8_directive_format.1 30 c7_obj_dir.gql_directive (Value.vdict []) [] rfl,
   C8_directive_format.1 30 c7_field_dir.gql_directive
     (Value.vdict [("reason", Value.vstr "GDPR")]) ["reason: \"GDPR\""] rfl,
   C8_directive_format.2 30 c7_field_dir (Value.vdict [("reason", Value.vstr "GDPR")])
     "(reason: \"GDPR\")" rfl rfl⟩

/-- C9: when the correlated strawberry field cannot be found — the schema
accessor knows no type of that name, or the field carries no (truthy)
python_name identifier — the directive lookup contributes nothing and the
field line still renders with its description, name, arguments, type
signature and deprecation clause. -/
theorem C9_missing_metadata_nonfatal (fuel : Nat) (st : Option TypeDefinition)
    (i : Nat) (name : String) (field : GraphQLField) (args_str : String)
    (hmiss : st = none ∨ python_name_of field = none ∨ python_name_of field = some "")
    (hargs : (match field.args with
              | some as => print_args fuel as "  "
              | none => pure "") = Except.ok args_str) :
    field_line fuel st i name field = Except.ok
      (print_description field.description "  " (i == 0)
        ++ "  " ++ name ++ args_str ++ ": " ++ field.type_str
        ++ print_deprecated field.deprecation_reason) := by
  have hsf : strawberry_field_of st field = none := by
    rcases hmiss with h | h | h
    · cases hpn : python_name_of field <;> simp [strawberry_field_of, h, hpn]
    · cases st <;> simp [strawberry_field_of, h]
    · cases st <;> simp [strawberry_field_of, h]
  simp only [field_line, hsf]
  cases hfa : field.args with
  | none =>
    rw [hfa] at hargs
    simp only [pure, Except.pure, Except.ok.injEq] at hargs
    subst hargs
    simp [print_field_directives, except_ok_bind, pure, Except.pure,
      Bind.bind, Except.bind, String.append_empty]
  | some as =>
    rw [hfa] at hargs
    have hargs2 : print_args fuel as "  " = Except.ok args_str := hargs
    simp [hargs2, print_field_directives, except_ok_bind, pure, Except.pure,
      Bind.bind, Except.bind, String.append_empty]

def c9_field : GraphQLField :=
  { type_str := "String!"
    args := none
    description := none
    deprecation_reason := some "No longer supported"
    extensions := none }

/-- C9 witness: a field with no extensions dict, printed against an absent
strawberry type, still renders its full line including the deprecation
clause. -/
theorem C9_missing_metadata_witness :
    field_line 10 none 0 "firstName" c9_field
      = Except.ok "  firstName: String! @deprecated" :=
  C9_missing_metadata_nonfatal 10 none 0 "firstName" c9_field "" (Or.inl rfl) rfl

/-- C10: when the schema accessor returns none for a type name, both the
type-level directive lookup and the extend lookup yield the empty string,
so the type block renders with no directive fragments and no extend
prefix. -/
theorem C10_unknown_type (fuel : Nat) (schema : BaseSchema) (name : String)
    (h : schema.get_type_by_name name = none) :
    print_type_directives fuel name schema = Except.ok ""
    ∧ print_extends name schema = "" := by
  constructor
  · simp [print_type_directives, h, pure, Except.pure]
  · simp [print_extends, h]

def c10_schema : BaseSchema :=
  { _schema := empty_core
    types_by_name := [] }

/-- C10 witness: the statement applied to a schema accessor that knows no
types at all. -/
theorem C10_unknown_type_witness :
    print_type_directives 5 "Missing" c10_schema = Except.ok ""
    ∧ print_extends "Missing" c10_schema = "" :=
  C10_unknown_type 5 c10_schema "Missing" rfl
